import Mathlib

/-!
Verification development for the simul8r client wrapper
(src/clientWrapper.js), a promise-based HTTP client for a remote
simulation service.  The file shallowly embeds the wrapper's data flow:
caller arguments are modelled as JavaScript values (`JsArg`), response
bodies and JSON data as `JsValue`, a settled/unsettled promise as
`PromiseOutcome`, and each request callback of the source as a Lean
function from the callback's `(error, response, body)` data to the
promise outcome.  The `JSON.parse` / string-coercion behaviour that
`getObject` relies on is modelled by an executable JSON parser
(`parseJson`) restricted to integer numerics (JSON fraction/exponent
numbers are floating point and are out of scope: such texts are treated
as unparseable).
-/

namespace Simul8r

/-- A JavaScript value appearing as a caller-supplied argument
(`simulation`, `agent`, `action`, `agentMode` in the source).  Numbers
that are not integers are split into `numNonInt` (finite non-integers
and the infinities, which are truthy; the field carries their JS string
form) and `nan` (falsy, prints "NaN"), so that the source's
`!x` and `Number.isInteger(x)` tests are both representable. -/
inductive JsArg where
  | int (n : Int)
  | numNonInt (repr : String)
  | nan
  | str (s : String)
  | jsNull
  | undef
  | jsBool (b : Bool)
  | jsObj
deriving DecidableEq, Repr

/-- JS truthiness test: `!x` in the source is `!(jsTruthyArg x)`.
Falsy values: `0`, `NaN`, the empty string, `null`, `undefined`, `false`. -/
def jsTruthyArg : JsArg → Bool
  | .int n => !(n == 0)
  | .numNonInt _ => true
  | .nan => false
  | .str s => !s.isEmpty
  | .jsNull => false
  | .undef => false
  | .jsBool b => b
  | .jsObj => true

/-- `Number.isInteger(x)`: true exactly for number values with an
integral value. -/
def isIntegerNumber : JsArg → Bool
  | .int _ => true
  | _ => false

/-- JS string coercion of an argument, as used in URL and message
concatenation (`"..." + x`). -/
def jsArgToString : JsArg → String
  | .int n => toString n
  | .numNonInt r => r
  | .nan => "NaN"
  | .str s => s
  | .jsNull => "null"
  | .undef => "undefined"
  | .jsBool b => if b then "true" else "false"
  | .jsObj => "[object Object]"

/-- JS loose equality `x == null`: true exactly for `null` and
`undefined`. -/
def looseEqNullish : JsArg → Bool
  | .jsNull => true
  | .undef => true
  | _ => false

/-- JS loose equality `x == 'undefined'` (the string-sentinel check the
source applies to `agent`): a string equals it iff it is the 9-character
text "undefined"; `undefined == 'undefined'` is false, as is every
number and boolean (they coerce through NaN or digits), and a plain
object coerces to "[object Object]". -/
def looseEqUndefinedText : JsArg → Bool
  | .str s => s == "undefined"
  | _ => false

/-- A JavaScript runtime value: response bodies, JSON data, rejection
payloads.  `errorObj` stands for a `new Error(msg)` instance. -/
inductive JsValue where
  | str (s : String)
  | num (n : Int)
  | bool (b : Bool)
  | null
  | undef
  | arr (elems : List JsValue)
  | obj (fields : List (String × JsValue))
  | errorObj (msg : String)
deriving Repr

/-- JS truthiness of a runtime value. -/
def jsTruthyValue : JsValue → Bool
  | .str s => !s.isEmpty
  | .num n => !(n == 0)
  | .bool b => b
  | .null => false
  | .undef => false
  | .arr _ => true
  | .obj _ => true
  | .errorObj _ => true

/-- The double-quote character. -/
def jsonQuote : Char := Char.ofNat 34

/-- The backslash character. -/
def jsonBackslash : Char := Char.ofNat 92

/-- The opening-brace character. -/
def lbraceChar : Char := Char.ofNat 123

/-- The closing-brace character. -/
def rbraceChar : Char := Char.ofNat 125

mutual

/-- JS `String(v)` coercion of a runtime value: strings unchanged,
numbers in decimal, arrays joined by commas (with `null`/`undefined`
elements rendered empty, per `Array.prototype.join`), plain objects as
"[object Object]", `Error` instances via `Error.prototype.toString`. -/
def jsValueToString : JsValue → String
  | .str s => s
  | .num n => toString n
  | .bool b => if b then "true" else "false"
  | .null => "null"
  | .undef => "undefined"
  | .arr xs => jsArrJoin xs
  | .obj _ => "[object Object]"
  | .errorObj m => "Error: " ++ m

/-- `Array.prototype.join(",")` over the element coercions. -/
def jsArrJoin : List JsValue → String
  | [] => ""
  | x :: xs =>
    (match x with
      | .null => ""
      | .undef => ""
      | v => jsValueToString v) ++
    (match xs with
      | [] => ""
      | _ => "," ++ jsArrJoin xs)

end

/-! ## Promises, responses and callbacks -/

/-- The outcome of a JS promise: settled by its first `resolve`, settled
by its first `reject`, or never settled (`pending`, used where the
source's callback would throw a `TypeError` on
`response.statusCode` with `response` undefined, leaving the promise
forever unsettled). -/
inductive PromiseOutcome (ε α : Type) where
  | resolved (a : α)
  | rejected (e : ε)
  | pending
deriving Repr

/-- Whether the promise outcome is a resolution. -/
def PromiseOutcome.isResolved : PromiseOutcome ε α → Bool
  | .resolved _ => true
  | _ => false

/-- The `response` argument of a `request` callback: either `undefined`
(transport error, no response) or a response object carrying a numeric
`statusCode`. -/
inductive JsResponse where
  | undef
  | obj (statusCode : Nat)
deriving DecidableEq, Repr

/-- The `(error, response, body)` triple a `request` callback receives:
`error` is `null` or an error value, `body` is the (possibly decoded)
response body. -/
structure NetCallback where
  error : Option JsValue
  response : JsResponse
  body : JsValue

/-- ToNumber coercion of a `response` value, for the source's loose
comparisons `response == 400` and `response == 415`: `undefined`
coerces to NaN, and an `IncomingMessage` object coerces through
ToPrimitive to "[object Object]", whose ToNumber is also NaN.  NaN is
modelled as `none`. -/
def responseToNumber : JsResponse → Option Int
  | .undef => none
  | .obj _ => none

/-- JS loose equality `response == n` for a numeric literal `n`:
NaN compares unequal to everything. -/
def responseLooseEqNum (r : JsResponse) (n : Int) : Bool :=
  match responseToNumber r with
  | none => false
  | some m => m == n

/-- JS `error || body` (the rejection value of `createSimulation` and
`getAgentStatus`): the error when it is present and truthy, otherwise
the body. -/
def jsOrValue (error : Option JsValue) (body : JsValue) : JsValue :=
  match error with
  | some e => if jsTruthyValue e then e else body
  | none => body

/-- String form of the callback's `error` for message concatenation:
`null` prints "null". -/
def errorText : Option JsValue → String
  | none => "null"
  | some e => jsValueToString e

/-- A rejection value flowing through the wrapper: a plain string
message (`reject("...")`), an `Error` object (`reject(new Error(...))`),
or a raw JS value (`reject(body)`, `reject(error || body)`). -/
inductive Reject where
  | msg (s : String)
  | err (s : String)
  | val (v : JsValue)
deriving Repr

/-! ## Leaf operations

Each leaf operation of src/clientWrapper.js wraps one HTTP request in a
`new Promise`; the model maps the callback data (and, where the source
validates, the caller arguments) to the promise outcome. -/

/-- The `AgentAction` enumeration of the source (six actions). -/
inductive AgentAction where
  | moveForward
  | turnLeft
  | turnRight
  | pickUp
  | drop
  | idle
deriving DecidableEq, Repr

/-- The string value of each `AgentAction` member. -/
def AgentAction.name : AgentAction → String
  | .moveForward => "moveForward"
  | .turnLeft => "turnLeft"
  | .turnRight => "turnRight"
  | .pickUp => "pickUp"
  | .drop => "drop"
  | .idle => "idle"

/-- `Object.values(AgentAction)` in the source's insertion order. -/
def agentActionValues : List String :=
  ["moveForward", "turnLeft", "turnRight", "pickUp", "drop", "idle"]

/-- `Object.values(AgentAction).includes(action)`: strict equality of
the argument with one of the six string values, so only those strings
qualify. -/
def includesAgentAction : JsArg → Bool
  | .str s => agentActionValues.contains s
  | _ => false

/-- The API base URL, `"https://" + hostname + "/api/"`. -/
def apiBase (hostname : String) : String := "https://" ++ hostname ++ "/api/"

/-- Response handling of `createSimulation` (lines 38-45): resolve the
body on a response with status 201 or 200, otherwise reject
`error || body`. -/
def createSimulation (cb : NetCallback) : PromiseOutcome Reject JsValue :=
  match cb.response with
  | .obj s =>
    if s == 201 || s == 200 then .resolved cb.body
    else .rejected (.val (jsOrValue cb.error cb.body))
  | .undef => .rejected (.val (jsOrValue cb.error cb.body))

/-- Response handling of `startSimulation` (lines 60-66): resolve the
body only on status exactly 200, otherwise reject the body.  There is
no `response &&` guard, so an absent response crashes the callback on
`response.statusCode` and the promise never settles. -/
def startSimulation (cb : NetCallback) : PromiseOutcome Reject JsValue :=
  match cb.response with
  | .obj s => if s == 200 then .resolved cb.body else .rejected (.val cb.body)
  | .undef => .pending

/-- Response handling of `getAgentStatus` (lines 81-87): resolve the
body only on status 200, otherwise reject `error || body`; an absent
response crashes the callback. -/
def getAgentStatus (cb : NetCallback) : PromiseOutcome Reject JsValue :=
  match cb.response with
  | .obj s =>
    if s == 200 then .resolved cb.body
    else .rejected (.val (jsOrValue cb.error cb.body))
  | .undef => .pending

/-- The synchronous `reject` calls of `performAgentAction`'s validation
(lines 103-117), in source order.  None of these `reject` calls
returns, so all four checks always run and the executor falls through
to the network request; the `|| 'null'` in each message is dead (the
concatenated prefix is a non-empty, hence truthy, string). -/
def performAgentActionRejects (simulation agent action agentMode : JsArg) :
    List String :=
  (if !(jsTruthyArg simulation) || !(isIntegerNumber simulation) then
    ["Invalid Simulation ID " ++ jsArgToString simulation] else []) ++
  (if looseEqUndefinedText agent || !(isIntegerNumber agent) then
    ["Invalid Agent ID " ++ jsArgToString agent] else []) ++
  (if !(jsTruthyArg action) || !(includesAgentAction action) then
    ["Invalid action " ++ jsArgToString action] else []) ++
  (if looseEqNullish agentMode then
    ["Invalid action " ++ jsArgToString agentMode] else [])

/-- The HTTP request `performAgentAction` posts (lines 119-129): the
action URL and the JSON body `{action, mode}`. -/
structure AgentActionRequest where
  url : String
  bodyAction : JsArg
  bodyMode : JsArg
deriving DecidableEq, Repr

/-- The request `performAgentAction` builds and posts.  Because the
validation `reject` calls do not return, this request is issued for
every input, valid or not. -/
def performAgentActionRequest (hostname : String)
    (simulation agent action agentMode : JsArg) : AgentActionRequest :=
  { url := apiBase hostname ++ "simulations/" ++ jsArgToString simulation ++
      "/agents/" ++ jsArgToString agent ++ "/action"
    bodyAction := action
    bodyMode := agentMode }

/-- Response handling of `performAgentAction`'s POST (lines 131-143):
resolve the body on status 201 or 200; otherwise the source compares
`response == 400` and `response == 415` — the response value itself,
not its `statusCode`, so both comparisons coerce through NaN and are
false — and falls through to the generic rejection
`response.statusCode + " Error : " + error`.  With an absent response
the generic branch crashes on `response.statusCode`. -/
def performAgentActionHandler (cb : NetCallback) (action simulation : JsArg) :
    PromiseOutcome Reject JsValue :=
  match cb.response with
  | .obj s =>
    if s == 201 || s == 200 then .resolved cb.body
    else if responseLooseEqNum (.obj s) 400 then
      .rejected (.err ("400 - Invalid actionid or simulationid " ++
        jsArgToString action ++ ", " ++ jsArgToString simulation))
    else if responseLooseEqNum (.obj s) 415 then
      .rejected (.err "415 - no JSON specified")
    else .rejected (.msg (toString s ++ " Error : " ++ errorText cb.error))
  | .undef =>
    if responseLooseEqNum .undef 400 then
      .rejected (.err ("400 - Invalid actionid or simulationid " ++
        jsArgToString action ++ ", " ++ jsArgToString simulation))
    else if responseLooseEqNum .undef 415 then
      .rejected (.err "415 - no JSON specified")
    else .pending

/-- The promise outcome of `performAgentAction` (lines 100-146): the
promise is settled by the first `reject` of the validation phase when
one fires (the later network callback can no longer settle it);
otherwise by the network callback. -/
def performAgentAction (simulation agent action agentMode : JsArg)
    (cb : NetCallback) : PromiseOutcome Reject JsValue :=
  match performAgentActionRejects simulation agent action agentMode with
  | r :: _ => .rejected (.msg r)
  | [] => performAgentActionHandler cb action simulation

/-- The synchronous validation `reject` of `simulateStep`
(lines 156-158); as in `performAgentAction` it does not return, so the
PUT request is issued regardless. -/
def simulateStepReject (simulation : JsArg) : Option String :=
  if !(jsTruthyArg simulation) || !(isIntegerNumber simulation) then
    some ("Invalid Simulation ID " ++ jsArgToString simulation)
  else none

/-- The promise outcome of `simulateStep` (lines 153-178): the
validation rejection settles first when it fires; otherwise resolve the
body on a response with status 200, and reject
`response.statusCode + " Error : " + error` on any other response
(crashing on an absent one). -/
def simulateStep (simulation : JsArg) (cb : NetCallback) :
    PromiseOutcome Reject JsValue :=
  match simulateStepReject simulation with
  | some r => .rejected (.msg r)
  | none =>
    match cb.response with
    | .obj s =>
      if s == 200 then .resolved cb.body
      else .rejected (.msg (toString s ++ " Error : " ++ errorText cb.error))
    | .undef => .pending

/-! ## Composite action cycle -/

/-- The three stages of `simulateAgentAction`, in pipeline order. -/
inductive Stage where
  | action
  | step
  | status
deriving DecidableEq, Repr

/-- The network callbacks each of the three requests of one action
cycle would receive, fixing the remote's behaviour for that cycle. -/
structure CycleNet where
  actionCb : NetCallback
  stepCb : NetCallback
  statusCb : NetCallback

/-- The promise chain of `simulateAgentAction` (lines 188-216) over the
three stage outcomes, together with the stages actually invoked, in
order: `performAgentAction` first; `simulateStep` only from its
`.then`; `getAgentStatus` only from `simulateStep`'s `.then`; each
`.catch` forwards the failing stage's error; an unsettled stage leaves
the chain unsettled with the later stages never invoked. -/
def simulateAgentActionRun (pa st ga : PromiseOutcome Reject JsValue) :
    PromiseOutcome Reject JsValue × List Stage :=
  match pa with
  | .pending => (.pending, [.action])
  | .rejected e => (.rejected e, [.action])
  | .resolved _ =>
    match st with
    | .pending => (.pending, [.action, .step])
    | .rejected e => (.rejected e, [.action, .step])
    | .resolved _ =>
      match ga with
      | .pending => (.pending, [.action, .step, .status])
      | .rejected e => (.rejected e, [.action, .step, .status])
      | .resolved g => (.resolved g, [.action, .step, .status])

/-- `simulateAgentAction(simulation, agent, action, agentMode)`: the
pipeline applied to the three leaf operations on the given arguments
and network behaviour. -/
def simulateAgentAction (simulation agent action agentMode : JsArg)
    (net : CycleNet) : PromiseOutcome Reject JsValue × List Stage :=
  simulateAgentActionRun
    (performAgentAction simulation agent action agentMode net.actionCb)
    (simulateStep simulation net.stepCb)
    (getAgentStatus net.statusCb)

/-! ## Action sequence runner -/

/-- The recursive `performAction` closure of `executeActionArray`
(lines 228-235), abstracted over the per-action cycle outcome `cyc`.
The first component models the JS return value: `none` when the
function returned plain `undefined` (index at or past the end), `some`
the adopted promise outcome otherwise; a `.then` callback that returns
`undefined` resolves its promise with `undefined`.  The second
component lists the actions for which a cycle was invoked, in order. -/
def performAction (cyc : JsArg → PromiseOutcome Reject JsValue) :
    List JsArg → Option (PromiseOutcome Reject JsValue) × List JsArg
  | [] => (none, [])
  | a :: rest =>
    match cyc a with
    | .pending => (some .pending, [a])
    | .rejected e => (some (.rejected e), [a])
    | .resolved _ =>
      match performAction cyc rest with
      | (none, t) => (some (.resolved JsValue.undef), a :: t)
      | (some o, t) => (some o, a :: t)

/-- `executeActionArray(simulation, agent, actions, mode)`
(lines 225-238) returns `performAction()` on the whole list. -/
def executeActionArray (cyc : JsArg → PromiseOutcome Reject JsValue)
    (actions : List JsArg) :
    Option (PromiseOutcome Reject JsValue) × List JsArg :=
  performAction cyc actions

/-! ## JSON.parse model

An executable recursive-descent parser for JSON text, used to model
`JSON.parse`.  Recursion through nested values is bounded by a fuel
argument; `parseJson` supplies one more than the text's length, which
bounds the nesting depth since every level of descent consumes at least
one character.  Numerics are restricted to integers: a fraction or
exponent part (floating point) makes the text unparseable to this
model. -/

/-- Whitespace accepted between JSON tokens. -/
def isJsonWs (c : Char) : Bool :=
  c == ' ' || c == Char.ofNat 9 || c == Char.ofNat 10 || c == Char.ofNat 13

/-- Drop leading JSON whitespace. -/
def skipJsonWs : List Char → List Char
  | [] => []
  | c :: cs => if isJsonWs c then skipJsonWs cs else c :: cs

/-- The value of a decimal digit character. -/
def digitVal (c : Char) : Option Nat :=
  if '0' ≤ c && c ≤ '9' then some (c.toNat - 48) else none

/-- The value of a hexadecimal digit character. -/
def hexDigitVal (c : Char) : Option Nat :=
  if '0' ≤ c && c ≤ '9' then some (c.toNat - 48)
  else if 'a' ≤ c && c ≤ 'f' then some (c.toNat - 87)
  else if 'A' ≤ c && c ≤ 'F' then some (c.toNat - 55)
  else none

/-- Consume a maximal run of decimal digits, accumulating their value. -/
def takeDigits : Nat → List Char → Nat → Nat × List Char
  | 0, cs, acc => (acc, cs)
  | _ + 1, [], acc => (acc, [])
  | fuel + 1, c :: cs, acc =>
    match digitVal c with
    | some d => takeDigits fuel cs (acc * 10 + d)
    | none => (acc, c :: cs)

/-- Parse a JSON natural-number literal: at least one digit, no leading
zero except the literal `0` itself. -/
def parseJsonNat (cs : List Char) : Option (Nat × List Char) :=
  match cs with
  | [] => none
  | c :: rest =>
    match digitVal c with
    | none => none
    | some 0 =>
      match rest with
      | c2 :: _ => if (digitVal c2).isSome then none else some (0, rest)
      | [] => some (0, [])
    | some d => some (takeDigits rest.length rest d)

/-- Parse a JSON integer literal (optional minus sign); a following
fraction or exponent marker makes it unparseable to this integer-only
model. -/
def parseJsonInt (cs : List Char) : Option (Int × List Char) :=
  let signed : Option (Int × List Char) :=
    match cs with
    | '-' :: rest => (parseJsonNat rest).map fun p => (-(p.1 : Int), p.2)
    | _ => (parseJsonNat cs).map fun p => ((p.1 : Int), p.2)
  match signed with
  | none => none
  | some (n, rest) =>
    match rest with
    | c :: _ => if c == '.' || c == 'e' || c == 'E' then none else some (n, rest)
    | [] => some (n, rest)

/-- Parse the body of a JSON string after the opening quote, handling
the escapes of the JSON grammar; a `\uXXXX` escape yields the
character of that code point (an invalid code point degrades to the
null character). -/
def parseJsonStringBody : Nat → List Char → List Char →
    Option (String × List Char)
  | 0, _, _ => none
  | _ + 1, _, [] => none
  | fuel + 1, acc, c :: cs =>
    if c == jsonQuote then some (String.mk acc.reverse, cs)
    else if c == jsonBackslash then
      match cs with
      | [] => none
      | e :: cs2 =>
        if e == jsonQuote then parseJsonStringBody fuel (jsonQuote :: acc) cs2
        else if e == jsonBackslash then
          parseJsonStringBody fuel (jsonBackslash :: acc) cs2
        else if e == '/' then parseJsonStringBody fuel ('/' :: acc) cs2
        else if e == 'b' then parseJsonStringBody fuel (Char.ofNat 8 :: acc) cs2
        else if e == 'f' then parseJsonStringBody fuel (Char.ofNat 12 :: acc) cs2
        else if e == 'n' then parseJsonStringBody fuel (Char.ofNat 10 :: acc) cs2
        else if e == 'r' then parseJsonStringBody fuel (Char.ofNat 13 :: acc) cs2
        else if e == 't' then parseJsonStringBody fuel (Char.ofNat 9 :: acc) cs2
        else if e == 'u' then
          match cs2 with
          | h1 :: h2 :: h3 :: h4 :: cs3 =>
            match hexDigitVal h1, hexDigitVal h2, hexDigitVal h3, hexDigitVal h4 with
            | some a, some b, some c4, some d =>
              parseJsonStringBody fuel
                (Char.ofNat (((a * 16 + b) * 16 + c4) * 16 + d) :: acc) cs3
            | _, _, _, _ => none
          | _ => none
        else none
    else if c.toNat < 32 then none
    else parseJsonStringBody fuel (c :: acc) cs

mutual

/-- Parse one JSON value, returning it with the unconsumed remainder. -/
def parseJsonValue : Nat → List Char → Option (JsValue × List Char)
  | 0, _ => none
  | fuel + 1, cs =>
    match skipJsonWs cs with
    | [] => none
    | c :: rest =>
      if c == jsonQuote then
        (parseJsonStringBody (rest.length + 1) [] rest).map fun p =>
          (JsValue.str p.1, p.2)
      else if c == lbraceChar then
        match skipJsonWs rest with
        | [] => none
        | d :: rest2 =>
          if d == rbraceChar then some (JsValue.obj [], rest2)
          else parseJsonMembers fuel (d :: rest2) []
      else if c == '[' then
        match skipJsonWs rest with
        | [] => none
        | d :: rest2 =>
          if d == ']' then some (JsValue.arr [], rest2)
          else parseJsonElements fuel (d :: rest2) []
      else if c == 't' then
        match rest with
        | 'r' :: 'u' :: 'e' :: r => some (JsValue.bool true, r)
        | _ => none
      else if c == 'f' then
        match rest with
        | 'a' :: 'l' :: 's' :: 'e' :: r => some (JsValue.bool false, r)
        | _ => none
      else if c == 'n' then
        match rest with
        | 'u' :: 'l' :: 'l' :: r => some (JsValue.null, r)
        | _ => none
      else (parseJsonInt (c :: rest)).map fun p => (JsValue.num p.1, p.2)

/-- Parse the members of a JSON object after its opening brace (at
least one member present). -/
def parseJsonMembers : Nat → List Char → List (String × JsValue) →
    Option (JsValue × List Char)
  | 0, _, _ => none
  | fuel + 1, cs, acc =>
    match skipJsonWs cs with
    | [] => none
    | c :: rest =>
      if c == jsonQuote then
        match parseJsonStringBody (rest.length + 1) [] rest with
        | none => none
        | some (key, afterKey) =>
          match skipJsonWs afterKey with
          | ':' :: afterColon =>
            match parseJsonValue fuel afterColon with
            | none => none
            | some (v, afterVal) =>
              match skipJsonWs afterVal with
              | [] => none
              | d :: next =>
                if d == ',' then parseJsonMembers fuel next ((key, v) :: acc)
                else if d == rbraceChar then
                  some (JsValue.obj ((key, v) :: acc).reverse, next)
                else none
          | _ => none
      else none

/-- Parse the elements of a JSON array after its opening bracket (at
least one element present). -/
def parseJsonElements : Nat → List Char → List JsValue →
    Option (JsValue × List Char)
  | 0, _, _ => none
  | fuel + 1, cs, acc =>
    match parseJsonValue fuel cs with
    | none => none
    | some (v, after) =>
      match skipJsonWs after with
      | ',' :: next => parseJsonElements fuel next (v :: acc)
      | ']' :: next => some (JsValue.arr (v :: acc).reverse, next)
      | _ => none

end

/-- `JSON.parse` applied to a text: one JSON value followed only by
whitespace, otherwise a parse error (`none`). -/
def parseJson (s : String) : Option JsValue :=
  match parseJsonValue (s.length + 1) s.data with
  | some (v, rest) =>
    match skipJsonWs rest with
    | [] => some v
    | _ => none
  | none => none

/-- `getObject(data)` (lines 286-293): `JSON.parse` first coerces its
argument to a string (`ToString(data)`, modelled by `jsValueToString`);
when the coerced text parses, the parsed value is returned, otherwise
the thrown parse error is caught and `data` is returned unchanged. -/
def getObject (data : JsValue) : JsValue :=
  match parseJson (jsValueToString data) with
  | some v => v
  | none => data

/-! ## JSON.stringify model (used in `init`'s error messages) -/

/-- The character of a hexadecimal digit value. -/
def hexDigitChar (n : Nat) : Char :=
  if n < 10 then Char.ofNat (48 + n) else Char.ofNat (87 + n)

/-- Escape the characters of a string for a JSON string literal. -/
def jsonEscapeChars : List Char → List Char
  | [] => []
  | c :: cs =>
    if c == jsonQuote then jsonBackslash :: jsonQuote :: jsonEscapeChars cs
    else if c == jsonBackslash then
      jsonBackslash :: jsonBackslash :: jsonEscapeChars cs
    else if c == Char.ofNat 8 then jsonBackslash :: 'b' :: jsonEscapeChars cs
    else if c == Char.ofNat 9 then jsonBackslash :: 't' :: jsonEscapeChars cs
    else if c == Char.ofNat 10 then jsonBackslash :: 'n' :: jsonEscapeChars cs
    else if c == Char.ofNat 12 then jsonBackslash :: 'f' :: jsonEscapeChars cs
    else if c == Char.ofNat 13 then jsonBackslash :: 'r' :: jsonEscapeChars cs
    else if c.toNat < 32 then
      jsonBackslash :: 'u' :: '0' :: '0' ::
        hexDigitChar (c.toNat / 16) :: hexDigitChar (c.toNat % 16) ::
        jsonEscapeChars cs
    else c :: jsonEscapeChars cs

/-- A JSON string literal for a string value. -/
def jsonQuoteString (s : String) : String :=
  String.mk (jsonQuote :: (jsonEscapeChars s.data ++ [jsonQuote]))

mutual

/-- `JSON.stringify(v)`: `none` when the result is `undefined` (as it
is for an `undefined` argument); an `Error` instance has no enumerable
own properties and stringifies to an empty object. -/
def jsonStringifyOpt : JsValue → Option String
  | .undef => none
  | .str s => some (jsonQuoteString s)
  | .num n => some (toString n)
  | .bool b => some (if b then "true" else "false")
  | .null => some "null"
  | .errorObj _ => some "\x7b\x7d"
  | .arr xs =>
    some ("[" ++ String.intercalate "," (jsonStringifyElems xs) ++ "]")
  | .obj fs =>
    some ("\x7b" ++ String.intercalate "," (jsonStringifyFields fs) ++ "\x7d")

/-- Array elements stringify with `undefined` rendered as `null`. -/
def jsonStringifyElems : List JsValue → List String
  | [] => []
  | x :: xs => ((jsonStringifyOpt x).getD "null") :: jsonStringifyElems xs

/-- Object fields stringify as `"key":value`, skipping fields whose
value stringifies to `undefined`. -/
def jsonStringifyFields : List (String × JsValue) → List String
  | [] => []
  | (k, v) :: fs =>
    match jsonStringifyOpt v with
    | some sv => (jsonQuoteString k ++ ":" ++ sv) :: jsonStringifyFields fs
    | none => jsonStringifyFields fs

end

/-- What `"..." + JSON.stringify(e)` appends: the stringification, or
the text "undefined" when `JSON.stringify` yields `undefined`. -/
def stringifyForConcat (v : JsValue) : String :=
  (jsonStringifyOpt v).getD "undefined"

/-! ## Establishment orchestration (`init`) -/

/-- The create payload as `init` reads it: the two fields the code
accesses — `createResponse.simulationId` (passed raw to
`startSimulation`) and `parseInt(createResponse.simulationData.NumAgents)`
(`numAgents` carries the already-parsed integer; the service returns
the count as a decimal string or number, which `parseInt` resolves to
this integer) — plus the payload itself (`body`) for the normalized
`createResponse` field of the result. -/
structure CreateResp where
  simulationId : Int
  numAgents : Int
  body : JsValue

/-- The remote behaviour `init` runs against: the promise outcome of
each of the three leaf calls as a function of the arguments `init`
passes it. -/
structure RemoteApi where
  create : String → PromiseOutcome JsValue CreateResp
  start : Int → PromiseOutcome JsValue JsValue
  status : Int → Int → PromiseOutcome JsValue JsValue

/-- A leaf call `init` makes, with its arguments. -/
inductive InitCall where
  | create (env : String)
  | start (simulationId : Int)
  | status (simulationId : Int) (agentId : Int)
deriving DecidableEq, Repr

/-- The result `init` assembles on full success (lines 253-262):
simulation id, parsed agent count, and the `getObject`-normalized
create/start/status payloads. -/
structure InitResult where
  simulationId : Int
  agents : Int
  createResponse : JsValue
  startResponse : JsValue
  agentStatus : JsValue

/-- `init(env)` (lines 245-276): runs `createSimulation("HW1")` — the
environment-name argument is the hardcoded literal, not the
caller-supplied `env`, which is only logged — then
`startSimulation(createResponse.simulationId)`, then
`getAgentStatus(simulationId, agents - 1)`; each `.catch` rejects
immediately with a stage-naming message around `JSON.stringify` of the
stage's error, and an unsettled stage leaves `init` unsettled.  The
second component lists the leaf calls made, in order. -/
def init (env : String) (api : RemoteApi) :
    PromiseOutcome JsValue InitResult × List InitCall :=
  let _ := env
  match api.create "HW1" with
  | .pending => (.pending, [.create "HW1"])
  | .rejected e =>
    (.rejected (.str ("Error creating Simulation " ++ stringifyForConcat e)),
      [.create "HW1"])
  | .resolved cr =>
    match api.start cr.simulationId with
    | .pending => (.pending, [.create "HW1", .start cr.simulationId])
    | .rejected e =>
      (.rejected (.str ("Error starting agent " ++ stringifyForConcat e)),
        [.create "HW1", .start cr.simulationId])
    | .resolved sr =>
      match api.status cr.simulationId (cr.numAgents - 1) with
      | .pending =>
        (.pending,
          [.create "HW1", .start cr.simulationId,
            .status cr.simulationId (cr.numAgents - 1)])
      | .rejected e =>
        (.rejected (.str ("Error getting agent status" ++ stringifyForConcat e)),
          [.create "HW1", .start cr.simulationId,
            .status cr.simulationId (cr.numAgents - 1)])
      | .resolved st =>
        (.resolved
          { simulationId := cr.simulationId
            agents := cr.numAgents
            createResponse := getObject cr.body
            startResponse := getObject sr
            agentStatus := getObject st },
          [.create "HW1", .start cr.simulationId,
            .status cr.simulationId (cr.numAgents - 1)])

/-- Whether an outcome is a rejection with one of the named `Error`
rejections of `performAgentAction`'s response handling (the 400 and
415 branches). -/
def isNamedErrorReject : PromiseOutcome Reject JsValue → Bool
  | .rejected (.err _) => true
  | _ => false

/-! ## Helper lemmas -/

/-- When every cycle of the list resolves, `performAction` invokes the
cycle once per element in order and yields `undefined` (plain for the
empty list, resolved otherwise). -/
theorem performAction_allResolved (cyc : JsArg → PromiseOutcome Reject JsValue) :
    ∀ actions : List JsArg, (∀ a ∈ actions, (cyc a).isResolved = true) →
      performAction cyc actions =
        ((if actions.isEmpty then none else some (.resolved JsValue.undef)),
          actions) := by
  intro actions h
  induction actions with
  | nil => rfl
  | cons a rest ih =>
    have ha : (cyc a).isResolved = true := h a (List.mem_cons_self a rest)
    have hrest : ∀ x ∈ rest, (cyc x).isResolved = true :=
      fun x hx => h x (List.mem_cons_of_mem a hx)
    have ih2 := ih hrest
    match hcyc : cyc a with
    | .pending => rw [hcyc] at ha; simp [PromiseOutcome.isResolved] at ha
    | .rejected e => rw [hcyc] at ha; simp [PromiseOutcome.isResolved] at ha
    | .resolved v =>
      simp only [performAction, hcyc, ih2]
      cases rest with
      | nil => simp
      | cons b bs => simp

/-- When the cycles of a prefix resolve and the next cycle rejects,
`performAction` invokes exactly the prefix and that cycle, in order,
and adopts the rejection. -/
theorem performAction_rejectAt (cyc : JsArg → PromiseOutcome Reject JsValue) :
    ∀ (l1 : List JsArg) (b : JsArg) (l2 : List JsArg) (e : Reject),
      (∀ a ∈ l1, (cyc a).isResolved = true) → cyc b = .rejected e →
      performAction cyc (l1 ++ b :: l2) = (some (.rejected e), l1 ++ [b]) := by
  intro l1
  induction l1 with
  | nil =>
    intro b l2 e _ hb
    simp [performAction, hb]
  | cons a rest ih =>
    intro b l2 e h hb
    have ha : (cyc a).isResolved = true := h a (List.mem_cons_self a rest)
    have hrest : ∀ x ∈ rest, (cyc x).isResolved = true :=
      fun x hx => h x (List.mem_cons_of_mem a hx)
    match hcyc : cyc a with
    | .pending => rw [hcyc] at ha; simp [PromiseOutcome.isResolved] at ha
    | .rejected e2 => rw [hcyc] at ha; simp [PromiseOutcome.isResolved] at ha
    | .resolved v =>
      have ih2 := ih b l2 e hrest hb
      simp only [List.cons_append, performAction, hcyc, List.append_eq, ih2]

/-! ## Claims -/

/-- C1: for every simulation id, agent id, action and mode,
`simulateAgentAction` runs a strict three-stage pipeline:
`performAgentAction` must fully succeed before `simulateStep` is
attempted, and `simulateStep` must fully succeed before
`getAgentStatus` is attempted; if any stage fails, the whole cycle
fails with that stage's error, and the later stages are never
attempted (they are absent from the invocation trace). -/
theorem simulateAgentAction_pipeline :
    ∀ (simulation agent action agentMode : JsArg) (net : CycleNet),
      (∀ e, performAgentAction simulation agent action agentMode net.actionCb =
          .rejected e →
        simulateAgentAction simulation agent action agentMode net =
          (.rejected e, [Stage.action])) ∧
      (∀ a e, performAgentAction simulation agent action agentMode net.actionCb =
          .resolved a →
        simulateStep simulation net.stepCb = .rejected e →
        simulateAgentAction simulation agent action agentMode net =
          (.rejected e, [Stage.action, Stage.step])) ∧
      (∀ a s e, performAgentAction simulation agent action agentMode net.actionCb =
          .resolved a →
        simulateStep simulation net.stepCb = .resolved s →
        getAgentStatus net.statusCb = .rejected e →
        simulateAgentAction simulation agent action agentMode net =
          (.rejected e, [Stage.action, Stage.step, Stage.status])) ∧
      (∀ a s g, performAgentAction simulation agent action agentMode net.actionCb =
          .resolved a →
        simulateStep simulation net.stepCb = .resolved s →
        getAgentStatus net.statusCb = .resolved g →
        simulateAgentAction simulation agent action agentMode net =
          (.resolved g, [Stage.action, Stage.step, Stage.status])) := by
  intro simulation agent action agentMode net
  refine ⟨?_, ?_, ?_, ?_⟩
  · intro e h
    simp [simulateAgentAction, simulateAgentActionRun, h]
  · intro a e h1 h2
    simp [simulateAgentAction, simulateAgentActionRun, h1, h2]
  · intro a s e h1 h2 h3
    simp [simulateAgentAction, simulateAgentActionRun, h1, h2, h3]
  · intro a s g h1 h2 h3
    simp [simulateAgentAction, simulateAgentActionRun, h1, h2, h3]

/-- C2: `executeActionArray` invokes the action cycle exactly once per
element of the ordered list, in list order; if a cycle fails after a
fully-resolved prefix, the failure propagates and the remaining
actions are never attempted; on the empty list it finishes with zero
invocations. -/
theorem executeActionArray_sequencing :
    ∀ (cyc : JsArg → PromiseOutcome Reject JsValue) (actions : List JsArg),
      (executeActionArray cyc [] = (none, [])) ∧
      ((∀ a ∈ actions, (cyc a).isResolved = true) →
        (executeActionArray cyc actions).2 = actions) ∧
      (∀ (l1 : List JsArg) (b : JsArg) (l2 : List JsArg) (e : Reject),
        actions = l1 ++ b :: l2 →
        (∀ a ∈ l1, (cyc a).isResolved = true) →
        cyc b = .rejected e →
        executeActionArray cyc actions = (some (.rejected e), l1 ++ [b])) := by
  intro cyc actions
  refine ⟨rfl, ?_, ?_⟩
  · intro h
    rw [executeActionArray, performAction_allResolved cyc actions h]
  · intro l1 b l2 e hsplit h1 hb
    rw [executeActionArray, hsplit, performAction_rejectAt cyc l1 b l2 e h1 hb]

/-- C9 (implicit): `executeActionArray` never yields the final cycle's
result: on the empty list the JS function returns plain `undefined`
rather than a promise, and on a non-empty list whose cycles all
succeed, the promise it returns resolves with `undefined` — the final
agent status is discarded. -/
theorem executeActionArray_discardsResult :
    ∀ (cyc : JsArg → PromiseOutcome Reject JsValue) (actions : List JsArg),
      ((executeActionArray cyc []).1 = none) ∧
      (actions ≠ [] → (∀ a ∈ actions, (cyc a).isResolved = true) →
        (executeActionArray cyc actions).1 =
          some (.resolved JsValue.undef)) := by
  intro cyc actions
  refine ⟨rfl, ?_⟩
  intro hne h
  rw [executeActionArray, performAction_allResolved cyc actions h]
  cases actions with
  | nil => exact absurd rfl hne
  | cons a rest => rfl

/-- C10 (implicit): the validation guards of `performAgentAction` and
`simulateStep` treat any falsy simulation id as absent, so both reject
the simulation id `0` with the message "Invalid Simulation ID 0" even
though `0` is a present, finite integer, whatever the other arguments
and whatever the network does. -/
theorem simulationIdZero_rejected :
    ∀ (agent action agentMode : JsArg) (cb cb2 : NetCallback),
      jsTruthyArg (JsArg.int 0) = false ∧
      isIntegerNumber (JsArg.int 0) = true ∧
      performAgentAction (JsArg.int 0) agent action agentMode cb =
        .rejected (.msg "Invalid Simulation ID 0") ∧
      simulateStep (JsArg.int 0) cb2 =
        .rejected (.msg "Invalid Simulation ID 0") := by
  intro agent action agentMode cb cb2
  exact ⟨rfl, rfl, rfl, rfl⟩

/-- C3 (code bug): at an invalid input (`simulationId` the non-integer
string "abc"), `performAgentAction`'s promise settles with the
validation rejection regardless of the network callback — but the
validation `reject` does not return, so the POST request is still
built and issued against the URL containing the invalid id: the claim
that no request is issued does not hold of the code. -/
theorem performAgentAction_invalidInputStillPosts :
    ∀ cb : NetCallback,
      performAgentActionRejects (JsArg.str "abc") (JsArg.int 1)
        (JsArg.str "idle") (JsArg.str "m") = ["Invalid Simulation ID abc"] ∧
      performAgentAction (JsArg.str "abc") (JsArg.int 1) (JsArg.str "idle")
        (JsArg.str "m") cb = .rejected (.msg "Invalid Simulation ID abc") ∧
      (performAgentActionRequest "host" (JsArg.str "abc") (JsArg.int 1)
        (JsArg.str "idle") (JsArg.str "m")).url =
        "https://host/api/simulations/abc/agents/1/action" := by
  intro cb
  exact ⟨rfl, rfl, rfl⟩

/-- C4: `startSimulation` resolves exactly when the response carries
status 200; every other response — including a 201, which
`createSimulation` accepts — fails it. -/
theorem startSimulation_requires200 :
    ∀ cb : NetCallback,
      ((startSimulation cb).isResolved = true ↔
        cb.response = JsResponse.obj 200) ∧
      (∀ s : Nat, s ≠ 200 → cb.response = JsResponse.obj s →
        startSimulation cb = .rejected (.val cb.body)) ∧
      (cb.response = JsResponse.obj 201 →
        startSimulation cb = .rejected (.val cb.body) ∧
        createSimulation cb = .resolved cb.body) := by
  intro cb
  refine ⟨?_, ?_, ?_⟩
  · cases hr : cb.response with
    | undef => simp [startSimulation, hr, PromiseOutcome.isResolved]
    | obj s =>
      by_cases h : s = 200
      · subst h
        simp [startSimulation, hr, PromiseOutcome.isResolved]
      · simp [startSimulation, hr, PromiseOutcome.isResolved, h]
  · intro s hs hr
    simp [startSimulation, hr, hs]
  · intro hr
    exact ⟨by simp [startSimulation, hr], by simp [createSimulation, hr]⟩

/-- C5: for each of the six `AgentAction` values, `performAgentAction`
with integer ids (simulation id non-zero) and a non-null mode passes
validation, posts a request whose JSON body is exactly
`{action, mode}` against `simulations/{id}/agents/{agentId}/action`,
and resolves with the response body on HTTP 200 and on HTTP 201. -/
theorem performAgentAction_valid
    (hostname : String) (n m : Int) (a : AgentAction) (agentMode : JsArg)
    (hn : n ≠ 0) (hmode : looseEqNullish agentMode = false) :
    performAgentActionRejects (.int n) (.int m) (.str a.name) agentMode = [] ∧
    performAgentActionRequest hostname (.int n) (.int m) (.str a.name)
        agentMode =
      { url := apiBase hostname ++ "simulations/" ++ toString n ++
          "/agents/" ++ toString m ++ "/action"
        bodyAction := .str a.name
        bodyMode := agentMode } ∧
    (∀ (err : Option JsValue) (body : JsValue),
      performAgentAction (.int n) (.int m) (.str a.name) agentMode
        { error := err, response := .obj 200, body := body } =
          .resolved body ∧
      performAgentAction (.int n) (.int m) (.str a.name) agentMode
        { error := err, response := .obj 201, body := body } =
          .resolved body) := by
  have hn2 : (n == 0) = false := beq_eq_false_iff_ne.mpr hn
  have hrej : performAgentActionRejects (.int n) (.int m) (.str a.name)
      agentMode = [] := by
    cases a <;>
      simp [performAgentActionRejects, jsTruthyArg, isIntegerNumber,
        looseEqUndefinedText, includesAgentAction, agentActionValues,
        AgentAction.name, hmode, hn2] <;>
      decide
  refine ⟨hrej, rfl, ?_⟩
  intro err body
  constructor <;> simp [performAgentAction, hrej, performAgentActionHandler]

/-- Witness for C5: the idle action against simulation 1, agent 0,
mode "fast", answered with HTTP 201, resolves with the body. -/
theorem performAgentAction_valid_witness :
    performAgentAction (JsArg.int 1) (JsArg.int 0)
      (JsArg.str AgentAction.idle.name) (JsArg.str "fast")
      { error := none, response := .obj 201, body := JsValue.str "ok" } =
      .resolved (JsValue.str "ok") :=
  ((performAgentAction_valid "host" 1 0 AgentAction.idle (JsArg.str "fast")
    (by decide) rfl).2.2 none (JsValue.str "ok")).2

/-- C6 (code bug): when the action POST does not succeed, the named
HTTP 400 and HTTP 415 `Error` rejections are unreachable — the source
compares the response object itself (not its `statusCode`) to 400 and
415, which is always false — so a 400 or 415 response falls through to
the generic rejection carrying the status code and the error, and no
input produces a named `Error` rejection. -/
theorem performAgentActionHandler_neverNamedError :
    ∀ (cb : NetCallback) (action simulation : JsArg),
      (cb.response = JsResponse.obj 400 →
        performAgentActionHandler cb action simulation =
          .rejected (.msg ("400 Error : " ++ errorText cb.error))) ∧
      (cb.response = JsResponse.obj 415 →
        performAgentActionHandler cb action simulation =
          .rejected (.msg ("415 Error : " ++ errorText cb.error))) ∧
      isNamedErrorReject (performAgentActionHandler cb action simulation) =
        false := by
  intro cb action simulation
  obtain ⟨err, resp, body⟩ := cb
  refine ⟨?_, ?_, ?_⟩
  · intro hr
    simp only at hr
    subst hr
    rfl
  · intro hr
    simp only at hr
    subst hr
    rfl
  · cases resp with
    | undef => rfl
    | obj s =>
      by_cases h : (s == 201 || s == 200) = true
      · simp [performAgentActionHandler, h, isNamedErrorReject]
      · simp [performAgentActionHandler, h, responseLooseEqNum,
          responseToNumber, isNamedErrorReject]

/-- C7: `init` creates with the hardcoded environment name "HW1"
whatever `envName` the caller supplies (the whole run is independent
of it), then starts the created simulation id, then reads the status
of agent index `agentCount - 1`; a failing stage rejects immediately
with that stage's annotating message and the later stages are never
attempted. -/
theorem init_pipeline :
    ∀ (env env2 : String) (api : RemoteApi),
      (init env api = init env2 api) ∧
      ((init env api).2.head? = some (.create "HW1")) ∧
      (∀ e, api.create "HW1" = .rejected e →
        init env api =
          (.rejected (.str ("Error creating Simulation " ++
              stringifyForConcat e)),
            [.create "HW1"])) ∧
      (∀ cr e, api.create "HW1" = .resolved cr →
        api.start cr.simulationId = .rejected e →
        init env api =
          (.rejected (.str ("Error starting agent " ++ stringifyForConcat e)),
            [.create "HW1", .start cr.simulationId])) ∧
      (∀ cr sr e, api.create "HW1" = .resolved cr →
        api.start cr.simulationId = .resolved sr →
        api.status cr.simulationId (cr.numAgents - 1) = .rejected e →
        init env api =
          (.rejected (.str ("Error getting agent status" ++
              stringifyForConcat e)),
            [.create "HW1", .start cr.simulationId,
              .status cr.simulationId (cr.numAgents - 1)])) ∧
      (∀ cr sr st, api.create "HW1" = .resolved cr →
        api.start cr.simulationId = .resolved sr →
        api.status cr.simulationId (cr.numAgents - 1) = .resolved st →
        init env api =
          (.resolved
            { simulationId := cr.simulationId
              agents := cr.numAgents
              createResponse := getObject cr.body
              startResponse := getObject sr
              agentStatus := getObject st },
            [.create "HW1", .start cr.simulationId,
              .status cr.simulationId (cr.numAgents - 1)])) := by
  intro env env2 api
  refine ⟨rfl, ?_, ?_, ?_, ?_, ?_⟩
  · cases h1 : api.create "HW1" with
    | pending => simp [init, h1]
    | rejected e => simp [init, h1]
    | resolved cr =>
      cases h2 : api.start cr.simulationId with
      | pending => simp [init, h1, h2]
      | rejected e => simp [init, h1, h2]
      | resolved sr =>
        cases h3 : api.status cr.simulationId (cr.numAgents - 1) with
        | pending => simp [init, h1, h2, h3]
        | rejected e => simp [init, h1, h2, h3]
        | resolved st => simp [init, h1, h2, h3]
  · intro e h1
    simp [init, h1]
  · intro cr e h1 h2
    simp [init, h1, h2]
  · intro cr sr e h1 h2 h3
    simp [init, h1, h2, h3]
  · intro cr sr st h1 h2 h3
    simp [init, h1, h2, h3]

/-- C8 (amended): `getObject` decodes its argument when it is a
JSON-encoded string; a string that is not valid JSON is returned
unchanged, and a plain object is returned unchanged (its string
coercion "[object Object]" never parses); moreover `getObject` is
idempotent at every input whose result is a plain object.  (Full
idempotence, and non-string inputs always passing through unchanged,
fail: see the counterexample.) -/
theorem getObject_normalization :
    ∀ (s : String) (j : JsValue) (fs : List (String × JsValue)) (v : JsValue),
      (parseJson s = some j → getObject (.str s) = j) ∧
      (parseJson s = none → getObject (.str s) = .str s) ∧
      (getObject (.obj fs) = .obj fs) ∧
      (getObject v = .obj fs → getObject (getObject v) = getObject v) := by
  intro s j fs v
  have hobj : ∀ gs : List (String × JsValue), getObject (.obj gs) = .obj gs := by
    intro gs
    have hcoerce : jsValueToString (JsValue.obj gs) = "[object Object]" := rfl
    have hp : parseJson "[object Object]" = none := rfl
    simp [getObject, hcoerce, hp]
  refine ⟨?_, ?_, hobj fs, ?_⟩
  · intro h
    simp [getObject, jsValueToString, h]
  · intro h
    simp [getObject, jsValueToString, h]
  · intro h
    rw [h]
    exact hobj fs

/-- Counterexample to C8 as stated: the double-encoded string `"1"`
decodes to the string "1" on the first application and to the number 1
on the second, so `getObject` is not idempotent; and the one-element
array `[5]` (a non-string input) coerces to the text "5" and is
changed into the number 5 rather than returned unchanged. -/
theorem getObject_not_idempotent :
    getObject (JsValue.str "\"1\"") = JsValue.str "1" ∧
    getObject (getObject (JsValue.str "\"1\"")) = JsValue.num 1 ∧
    getObject (getObject (JsValue.str "\"1\"")) ≠
      getObject (JsValue.str "\"1\"") ∧
    getObject (JsValue.arr [JsValue.num 5]) = JsValue.num 5 := by
  refine ⟨rfl, rfl, ?_, rfl⟩
  intro h
  have h1 : getObject (JsValue.str "\"1\"") = JsValue.str "1" := rfl
  have h2 : getObject (getObject (JsValue.str "\"1\"")) = JsValue.num 1 := rfl
  rw [h2, h1] at h
  exact JsValue.noConfusion h

end Simul8r
